import Mathlib

/-!
# Verification of the overlay CLI payment engine

A shallow embedding of the core payment engine of `scripts/overlay-cli.mjs`:
the payment verifier (`verifyAndAcceptPayment`), the direct-payment builder
(`buildDirectPayment`), the stored-BEEF builder (`buildFromStoredBeef`), the
tiered funding resolution (`buildRealOverlayTransaction`), the synthetic
funding guard (`buildSyntheticTx`), the chain cache
(`saveChangeBeef` / `serializeSourceChain` / `reconstructFromChain`), the TSC
proof reconstructor (`buildMerklePathFromTSC`) and the relay message
authenticator / dispatcher (`signRelayMessage` / `verifyRelaySignature` /
`processMessage`).

External collaborators (the chain SDK's binary transaction codec, SHA-256 and
ECDSA, the HTTP transport, the wallet database) are modelled by their
interfaces: serialization is modelled by the wire data it preserves, the hash
and signature scheme by an idealized collision-free model, and network
responses by an explicit oracle, while every decision made by the repository's
own code is translated statement by statement from the source.
-/

namespace OverlayCLI

/-! ## Script and output model

`verifyAndAcceptPayment` (overlay-cli.mjs lines 831-848) inspects locking
scripts chunk by chunk; a chunk has an opcode and optional push data. -/

/-- One script chunk: an opcode with optional push data, as exposed by the
chain SDK's `lockingScript.chunks`. -/
structure Chunk where
  op : Nat
  data : Option (List Nat)
deriving DecidableEq, Repr

/-- A locking script as a chunk list. -/
abbrev ScriptM := List Chunk

/-- The standard pay-to-key-hash locking script produced by `P2PKH().lock(h)`:
`OP_DUP OP_HASH160 <20-byte push> OP_EQUALVERIFY OP_CHECKSIG`. -/
def p2pkhLock (h : List Nat) : ScriptM :=
  [⟨0x76, none⟩, ⟨0xa9, none⟩, ⟨0x14, some h⟩, ⟨0x88, none⟩, ⟨0xac, none⟩]

/-- A transaction output as the verifier sees it. -/
structure OutputM where
  lockingScript : ScriptM
  satoshis : Nat
deriving DecidableEq, Repr

/-- The resolved payment transaction: its id plus its outputs (all the
verifier reads from the decoded bundle). -/
structure TxV where
  txid : String
  outputs : List OutputM
deriving DecidableEq, Repr

/-- The output-matching test of overlay-cli.mjs lines 836-842: exactly five
chunks, the P2PKH opcodes in place, a 20-byte push whose bytes equal the
recipient's hash160 (length test plus pointwise comparison, as in the
source). -/
def isP2pkhTo (s : ScriptM) (h160 : List Nat) : Bool :=
  match s with
  | [c0, c1, c2, c3, c4] =>
    c0.op == 0x76 && c1.op == 0xa9 &&
    (match c2.data with
     | some d => d.length == 20 && d == h160
     | none => false) &&
    c3.op == 0x88 && c4.op == 0xac
  | _ => false

/-- Scan helper for `findPaymentOutput`: index-carrying first match. -/
def findPaymentOutputAux (h160 : List Nat) : Nat → List OutputM → Option (Nat × Nat)
  | _, [] => none
  | i, o :: rest =>
    if isP2pkhTo o.lockingScript h160 then some (i, o.satoshis)
    else findPaymentOutputAux h160 (i + 1) rest

/-- The output scan of overlay-cli.mjs lines 827-848: the first output whose
standard P2PKH script hash equals the recipient's hash160, returned with its
index and satoshis. -/
def findPaymentOutput (outs : List OutputM) (h160 : List Nat) : Option (Nat × Nat) :=
  findPaymentOutputAux h160 0 outs

/-! ## Payment verifier (`verifyAndAcceptPayment`, lines 776-890) -/

/-- The inbound `payment.beef` field after the external base64/BEEF decoding
steps (lines 796-825): each constructor records which of the source's decode
outcomes occurred. The binary codec itself is the external chain SDK's. -/
inductive BeefBytes where
  | badBase64 : BeefBytes
  | tooShort : BeefBytes
  | parseFail (msg : String) : BeefBytes
  | parsed (tx : TxV) : BeefBytes
deriving DecidableEq, Repr

/-- The decode cascade of lines 796-825 mapped to its error strings. -/
def decodeBeef : BeefBytes → Except String TxV
  | .badBase64 => .error "invalid base64"
  | .tooShort => .error "invalid beef length"
  | .parseFail m => .error ("beef parse failed: " ++ m)
  | .parsed tx => .ok tx

/-- The inbound payment object: `beef` is `none` when the field is absent
(falsy); `satoshis = 0` models both an absent and a zero claimed amount (both
falsy to the `!payment.satoshis` test of line 787). -/
structure PaymentObj where
  beef : Option BeefBytes
  satoshis : Nat
deriving DecidableEq, Repr

/-- The record appended to `received-payments.jsonl` (lines 874-883). -/
structure LedgerEntry where
  txid : String
  vout : Nat
  satoshis : Nat
  serviceId : String
  fromKey : String
deriving DecidableEq, Repr

/-- The structured result of `verifyAndAcceptPayment` (lines 777-784), plus
the ledger entry it appends on success. -/
structure VerifyResult where
  accepted : Bool
  txid : Option String
  satoshis : Nat
  outputIndex : Int
  walletAccepted : Bool
  error : Option String
  ledger : Option LedgerEntry
deriving DecidableEq, Repr

/-- The base result record of lines 777-784. -/
def verifyBase : VerifyResult :=
  { accepted := false, txid := none, satoshis := 0, outputIndex := -1,
    walletAccepted := false, error := none, ledger := none }

/-- A rejection: the base record with only the error string set, which is how
every early `return result` of lines 786-857 leaves the record. -/
def verifyErr (e : String) : VerifyResult :=
  { verifyBase with error := some e }

/-- `verifyAndAcceptPayment` (overlay-cli.mjs lines 776-890). `payment` is
`none` when the argument is falsy; `storeFail` is `some m` when the
append to the received-payments ledger throws with message `m` (the
filesystem is external). Every branch mirrors the source's order: missing
payment / missing beef / zero claimed satoshis, claimed amount below minimum,
decode failures, output scan, output amount check, then the store step which
on failure leaves `accepted` untouched and records the error string. -/
def verifyAndAcceptPayment (payment : Option PaymentObj) (minSats : Nat)
    (senderKey serviceId : String) (recipientHash160 : List Nat)
    (storeFail : Option String) : VerifyResult :=
  match payment with
  | none => verifyErr "no payment"
  | some p =>
    match p.beef with
    | none => verifyErr "no payment"
    | some bb =>
      if p.satoshis = 0 then verifyErr "no payment"
      else if p.satoshis < minSats then
        verifyErr ("underpaid: " ++ (toString p.satoshis ++ (" < " ++ toString minSats)))
      else
        match decodeBeef bb with
        | .error e => verifyErr e
        | .ok tx =>
          match findPaymentOutput tx.outputs recipientHash160 with
          | none => verifyErr "no matching output"
          | some (i, ps) =>
            if ps < minSats then
              verifyErr ("output underpaid: " ++ (toString ps ++ (" < " ++ toString minSats)))
            else
              match storeFail with
              | none =>
                { accepted := true, txid := some tx.txid, satoshis := ps,
                  outputIndex := (i : Int), walletAccepted := true, error := none,
                  ledger := some ⟨tx.txid, i, ps, serviceId, senderKey⟩ }
              | some m =>
                { accepted := true, txid := some tx.txid, satoshis := ps,
                  outputIndex := (i : Int), walletAccepted := false,
                  error := some ("payment store failed: " ++ m), ledger := none }

/-! ## Direct payment builder (`buildDirectPayment`, lines 1232-1399)

Fee and change logic of lines 1339-1354: a fixed-size estimate (one input,
two outputs), fee `max(ceil(estimatedSize * 0.5), 50)`, change appended only
at or above the 136-satoshi P2PKH dust threshold. -/

/-- `const estimatedSize = 148 + 34 * 2 + 10` (line 1340). -/
def estimatedSize : Nat := 148 + 34 * 2 + 10

/-- `Math.max(Math.ceil(estimatedSize * 0.5), 50)` (line 1341);
`ceil(n * 0.5) = (n + 1) / 2` on naturals. -/
def directFee : Nat := max ((estimatedSize + 1) / 2) 50

/-- What `buildDirectPayment` produces from the resolved source value: the
output list of the signed transaction, the fee, the change amount, and the
change frontier saved by `saveChangeBeef` when the dust threshold is met
(lines 1333-1369). -/
structure BuiltPayment where
  outputs : List OutputM
  fee : Nat
  change : Nat
  changeSaved : Option Nat
deriving DecidableEq, Repr

/-- The output/fee/change computation of `buildDirectPayment` lines
1333-1369: output 0 pays the recipient, a negative change throws
(`Insufficient funds after fee`), change at or above 136 satoshis is appended
as output 1 and saved as the new frontier, below 136 it is dropped into the
fee. -/
def buildPaymentOutputs (sourceValue sats : Nat) (senderH recipientH : List Nat) :
    Except String BuiltPayment :=
  let fee := directFee
  if sourceValue < sats + fee then
    .error ("Insufficient funds after fee. Source: " ++ (toString sourceValue ++
      (", payment: " ++ (toString sats ++ (", fee: " ++ toString fee)))))
  else
    let change := sourceValue - sats - fee
    .ok { outputs := ⟨p2pkhLock recipientH, sats⟩ ::
            (if 136 ≤ change then [⟨p2pkhLock senderH, change⟩] else []),
          fee := fee, change := change,
          changeSaved := if 136 ≤ change then some change else none }

/-! ## Stored-BEEF overlay builder (`buildFromStoredBeef`, lines 421-458) -/

/-- An `OP_FALSE OP_RETURN` data script as built by `buildOpReturnScript`:
opcode 0 then OP_RETURN (0x6a) then the protocol id and payload pushes. -/
def opReturnScript (protocolId payload : List Nat) : ScriptM :=
  [⟨0x00, none⟩, ⟨0x6a, none⟩, ⟨protocolId.length, some protocolId⟩,
   ⟨payload.length, some payload⟩]

/-- The outputs and change bookkeeping of `buildFromStoredBeef` lines
432-455: a zero-satoshi OP_RETURN output, `fee = 200`, and a change output
appended whenever `storedChange.satoshis - fee > 0` (note: a plain
positivity test, not the 136-satoshi dust threshold), in which case the
change is saved as the new frontier. -/
structure StoredBuild where
  outputs : List OutputM
  changeSats : Int
  changeVout : Int
  changeSaved : Option Nat
deriving DecidableEq, Repr

/-- `buildFromStoredBeef` lines 432-455, restricted to its output and change
logic (signing, BEEF assembly and the overlay submit call are external). -/
def buildFromStoredBeefModel (storedSats : Nat) (senderH : List Nat)
    (opRet : ScriptM) : StoredBuild :=
  let fee : Int := 200
  let changeSats : Int := (storedSats : Int) - fee
  let changeVout : Int := if 0 < changeSats then 1 else -1
  { outputs := ⟨opRet, 0⟩ ::
      (if 0 < changeSats then [⟨p2pkhLock senderH, changeSats.toNat⟩] else []),
    changeSats := changeSats, changeVout := changeVout,
    changeSaved := if 0 < changeSats then some changeSats.toNat else none }

/-! ## TSC proof reconstructor (`buildMerklePathFromTSC`, lines 563-589) -/

/-- One entry of the indexer's TSC `nodes` array: a sibling hash or the
`"*"` duplicate marker. -/
inductive TSCNode where
  | star : TSCNode
  | hashStr (h : String) : TSCNode
deriving DecidableEq, Repr

/-- One node of the path argument handed to the external `MerklePath`
constructor: `{offset, hash?, txid?, duplicate?}` as built by lines 569-585.
An absent JS property is `none`/`false`. -/
structure PathNode where
  offset : Nat
  hash : Option String
  txidFlag : Bool
  duplicate : Bool
deriving DecidableEq, Repr

/-- `level0.sort((a, b) => a.offset - b.offset)` on the two level-0 entries
(line 575); the two offsets differ by an XOR with 1 so they are never
equal. -/
def sortPair (a b : PathNode) : List PathNode :=
  if a.offset ≤ b.offset then [a, b] else [b, a]

/-- The level-0 sibling entry (lines 570-574): `duplicate` for the `"*"`
marker, otherwise the hash; when `nodes` is empty, `nodes[0]` is undefined,
the `=== '*'` test is false and the entry gets an undefined hash. -/
def tscSibling (txIndex : Nat) (n0 : Option TSCNode) : PathNode :=
  match n0 with
  | some .star => ⟨txIndex ^^^ 1, none, false, true⟩
  | some (.hashStr h) => ⟨txIndex ^^^ 1, some h, false, false⟩
  | none => ⟨txIndex ^^^ 1, none, false, false⟩

/-- A higher-level entry (lines 579-585). -/
def tscHigherLevel (txIndex : Nat) (i : Nat) (n : Option TSCNode) : List PathNode :=
  match n with
  | some .star => [⟨(txIndex >>> i) ^^^ 1, none, false, true⟩]
  | some (.hashStr h) => [⟨(txIndex >>> i) ^^^ 1, some h, false, false⟩]
  | none => [⟨(txIndex >>> i) ^^^ 1, none, false, false⟩]

/-- The argument pair `(blockHeight, mpPath)` that line 588 passes to the
external `MerklePath` constructor. -/
structure MerklePathArg where
  blockHeight : Nat
  path : List (List PathNode)
deriving DecidableEq, Repr

/-- `buildMerklePathFromTSC` (lines 563-589). The function performs no
validation of `nodes`: it builds level 0 from the subject and
`nodes[0]`, then one single-entry level per remaining node, and hands the
result to the external constructor. -/
def buildMerklePathFromTSC (txid : String) (txIndex : Nat) (nodes : List TSCNode)
    (blockHeight : Nat) : MerklePathArg :=
  let subject : PathNode := ⟨txIndex, some txid, true, false⟩
  let level0 := sortPair subject (tscSibling txIndex nodes.head?)
  let higher := ((List.range nodes.length).drop 1).map
    (fun i => tscHigherLevel txIndex i (nodes.get? i))
  ⟨blockHeight, level0 :: higher⟩

/-- Well-formedness of a path node per the data model: an entry must carry a
hash, be the subject, or be an explicit duplicate. -/
def wellFormedNode (n : PathNode) : Bool :=
  n.txidFlag || n.duplicate || n.hash.isSome

/-! ## Chain cache (`saveChangeBeef` / `serializeSourceChain` /
`reconstructFromChain`, lines 365-418)

The cache snapshots the first-input ancestor chain of a transaction: each
ancestor's raw hex, its id, and — when present — its merkle path as the hex
of the SDK's `toBinary()` plus the block height. Reconstruction re-parses
each hex and re-attaches each proof with `MerklePath.fromBinary`.

The external SDK's serialization is modelled by what it preserves: `toHex`
keeps exactly the wire data (id, whether a first input exists) and drops the
in-memory `sourceTransaction` links and the `merklePath`; `fromHex` restores
the wire data with no links and no proof. The merkle-path binary coding is
modelled as an explicit self-delimiting coding (8-byte little-endian block
height followed by the body bytes), so that `fromBinary ∘ toBinary` is the
identity by proof rather than by assumption. -/

/-- Little-endian base-256 encoding with a fixed byte count. -/
def leBytes : Nat → Nat → List Nat
  | 0, _ => []
  | k + 1, n => n % 256 :: leBytes k (n / 256)

/-- Little-endian base-256 value of a byte list. -/
def leVal : List Nat → Nat
  | [] => 0
  | b :: rest => b + 256 * leVal rest

/-- The SDK `MerklePath` as the chain cache relies on it: a block height and
the body of its binary form. -/
structure MerklePathM where
  blockHeight : Nat
  body : List Nat
deriving DecidableEq, Repr

/-- Model of the SDK's `merklePath.toBinary()`. -/
def mpToBinary (m : MerklePathM) : List Nat :=
  leBytes 8 m.blockHeight ++ m.body

/-- Model of the SDK's `MerklePath.fromBinary`. -/
def mpFromBinary (bs : List Nat) : MerklePathM :=
  ⟨leVal (bs.take 8), bs.drop 8⟩

/-- Hex digit for a value below 16, lowercase as JS `toString(16)`. -/
def hexDigitChar (n : Nat) : Char :=
  if n < 10 then Char.ofNat (48 + n) else Char.ofNat (87 + n)

/-- `b.toString(16).padStart(2, '0')` for a byte value (line 391). -/
def hexByte (b : Nat) : List Char :=
  [hexDigitChar (b / 16), hexDigitChar (b % 16)]

/-- `Array.from(bytes).map(hex).join('')` (line 391), as the character
list of the resulting string. -/
def bytesToHex (bs : List Nat) : List Char :=
  (bs.map hexByte).flatten

/-- Value of one hex character as `parseInt` reads it (lowercase input). -/
def hexVal (c : Char) : Nat :=
  if 48 ≤ c.toNat ∧ c.toNat ≤ 57 then c.toNat - 48
  else if 97 ≤ c.toNat ∧ c.toNat ≤ 102 then c.toNat - 87
  else 0

/-- `hex.match(/.{2}/g).map(h => parseInt(h, 16))` (line 410): consume the
characters two at a time. -/
def hexToBytes : List Char → List Nat
  | c1 :: c2 :: rest => (hexVal c1 * 16 + hexVal c2) :: hexToBytes rest
  | _ => []

/-- The wire data of a transaction: what survives `toHex`/`fromHex`. `txid`
is the SDK's `id('hex')`; `hasInput` records whether a first input exists
(reconstruction assigns to `inputs[0]`, so its existence is wire data the
model must carry). -/
structure WireTx where
  txid : String
  hasInput : Bool
deriving DecidableEq, Repr

/-- An in-memory transaction as the chain cache walks it: wire data, the
optional first-input `sourceTransaction` link, and the optional attached
merkle path. Inputs beyond the first are not walked by the cache
(lines 386-396) and are not modelled. -/
inductive TxC where
  | leaf (wire : WireTx) (proof : Option MerklePathM) : TxC
  | node (wire : WireTx) (src : TxC) (proof : Option MerklePathM) : TxC
deriving Repr

/-- The wire data of a transaction. -/
def TxC.wire : TxC → WireTx
  | .leaf w _ => w
  | .node w _ _ => w

/-- The optional first-input source link. -/
def TxC.source : TxC → Option TxC
  | .leaf _ _ => none
  | .node _ s _ => some s

/-- The optional attached merkle path. -/
def TxC.proof : TxC → Option MerklePathM
  | .leaf _ pr => pr
  | .node _ _ pr => pr

/-- Number of ancestors reachable through first-input links. -/
def TxC.depth : TxC → Nat
  | .leaf _ _ => 0
  | .node _ s _ => s.depth + 1

/-- The ancestor linkage of a transaction: the ids of the ancestors reachable
through each first input's source link, with the proof attached at each. -/
def TxC.ancestry : TxC → List (String × Option MerklePathM)
  | .leaf _ _ => []
  | .node _ s _ => (s.wire.txid, s.proof) :: s.ancestry

/-- One entry of the persisted `sourceChain` (lines 389-393): the ancestor's
raw hex (its wire data), its id, and — when a proof is attached — the hex of
its binary merkle path and its block height. -/
structure ChainEntry where
  txWire : WireTx
  txid : String
  merklePathHex : Option (List Char)
  blockHeight : Option Nat
deriving DecidableEq, Repr

/-- The entry snapshotted for one ancestor. -/
def entryOf (s : TxC) : ChainEntry :=
  { txWire := s.wire, txid := s.wire.txid,
    merklePathHex := s.proof.map (fun m => bytesToHex (mpToBinary m)),
    blockHeight := s.proof.map (fun m => m.blockHeight) }

/-- `serializeSourceChain` (lines 383-398): walk the first-input source links
for at most 15 steps, snapshotting each ancestor. -/
def serializeSourceChain : TxC → Nat → List ChainEntry
  | _, 0 => []
  | .leaf _ _, _ + 1 => []
  | .node _ s _, d + 1 => entryOf s :: serializeSourceChain s d

/-- The persisted frontier record `latest-change.json` (lines 370-378). -/
structure StoredChangeRec where
  txWire : WireTx
  txid : String
  vout : Nat
  satoshis : Nat
  sourceChain : List ChainEntry
deriving DecidableEq, Repr

/-- `saveChangeBeef` (lines 366-380): persist the transaction's wire hex, id,
change output index and amount, and the serialized source chain. -/
def saveChangeBeef (t : TxC) (changeSats changeVout : Nat) : StoredChangeRec :=
  { txWire := t.wire, txid := t.wire.txid, vout := changeVout,
    satoshis := changeSats, sourceChain := serializeSourceChain t 15 }

/-- The chain-relinking loop of `reconstructFromChain` (lines 405-415), from
the first entry on: parse the entry's hex, attach its proof via
`fromBinary`, link it as the child's first-input source, recurse. `none`
models the JS `TypeError` thrown when a child has no first input to assign
to. -/
def relinkChain : ChainEntry → List ChainEntry → Option TxC
  | e, [] =>
    some (.leaf e.txWire (e.merklePathHex.map (fun hx => mpFromBinary (hexToBytes hx))))
  | e, e2 :: rest =>
    if e.txWire.hasInput then
      (relinkChain e2 rest).map
        (fun s => .node e.txWire s (e.merklePathHex.map (fun hx => mpFromBinary (hexToBytes hx))))
    else none

/-- `reconstructFromChain` (lines 400-418): re-parse the stored transaction
hex (wire data only — the parsed object has no links and no proof) and relink
the stored source chain under it. -/
def reconstructFromChain (s : StoredChangeRec) : Option TxC :=
  match s.sourceChain with
  | [] => some (.leaf s.txWire none)
  | e :: rest =>
    if s.txWire.hasInput then
      (relinkChain e rest).map (fun src => .node s.txWire src none)
    else none

/-- Well-formedness of an optional proof (byte-valued body, bounded
height). -/
def prWf : Option MerklePathM → Bool
  | none => true
  | some m => decide (m.blockHeight < 256 ^ 8) && m.body.all (fun b => b < 256)

/-- Well-formedness of an in-memory transaction: a transaction with a source
link has a first input, every attached proof's block height fits the model's
8-byte coding, and every proof body entry is a byte. -/
def TxC.wf : TxC → Bool
  | .leaf _ pr => prWf pr
  | .node w s pr => w.hasInput && prWf pr && s.wf

/-! ## Funding resolution (`buildDirectPayment` lines 1261-1318,
`buildRealOverlayTransaction` lines 303-363, `buildSyntheticTx` lines
664-707)

Network traffic is made explicit: every WhatsOnChain request the code would
issue is recorded in a call trace, and the indexer's responses come from an
oracle structure. -/

/-- One WhatsOnChain request. `postRawTx` is the broadcast `POST /tx/raw`;
the others fetch unspent outputs, transactions or proofs. -/
inductive NetCall where
  | getUnspent : NetCall
  | getTxHex (txid : String) : NetCall
  | getTxInfo (txid : String) : NetCall
  | getProofTsc (txid : String) : NetCall
  | postRawTx : NetCall
deriving DecidableEq, Repr

/-- Whether a call fetches unspent outputs, transactions or proofs from the
indexer (as opposed to broadcasting a raw transaction). -/
def NetCall.isFetch : NetCall → Bool
  | .postRawTx => false
  | _ => true

/-- One UTXO as returned by `GET address/{addr}/unspent`. -/
structure UtxoM where
  txHash : String
  txPos : Nat
  value : Nat
deriving DecidableEq, Repr

/-- `GET tx/{id}` response fields the code reads; `blockheight = 0` models a
falsy/absent block height. -/
structure TxInfoM where
  confirmations : Nat
  blockheight : Nat
deriving DecidableEq, Repr

/-- The indexer oracle: `unspentOk`/`utxos` for the unspent query, `info` for
`GET tx/{id}` (`none` = response not ok), `rawHex` for whether
`GET tx/{id}/hex` succeeds, and `parentOf` for the fetched transaction's
first-input `sourceTXID`. -/
structure WocOracle where
  unspentOk : Bool
  utxos : List UtxoM
  info : String → Option TxInfoM
  rawHex : String → Bool
  parentOf : String → Option String

/-- The confirmation walk of `buildDirectPayment` lines 1295-1317 as the
calls it issues: per step, fetch the tx info; stop on a failed fetch; on a
confirmed tx with a block height, fetch its TSC proof and stop; otherwise
fetch the first parent's hex and continue (stopping when there is no parent
or the hex fetch fails). Fuel is the loop bound (`depth < 10`). -/
def wocProofWalk (o : WocOracle) : String → Nat → List NetCall
  | _, 0 => []
  | txid, d + 1 =>
    NetCall.getTxInfo txid ::
    (match o.info txid with
     | none => []
     | some i =>
       if 0 < i.confirmations ∧ i.blockheight ≠ 0 then [NetCall.getProofTsc txid]
       else
         match o.parentOf txid with
         | none => []
         | some p =>
           NetCall.getTxHex p :: (if o.rawHex p then wocProofWalk o p d else []))

/-- The persisted frontier file as the funding code finds it: absent,
unparseable (read or JSON error, swallowed by the `catch`), or a parsed
record. -/
inductive StoredFile where
  | absent : StoredFile
  | corrupt : StoredFile
  | good (rec : StoredChangeRec) : StoredFile

/-- The WhatsOnChain fallback of `buildDirectPayment` lines 1280-1318:
fetch unspent outputs (failure throws), filter them by `sats + 200`, take
the first (none left throws `Insufficient funds`), fetch its raw hex
(failure throws), then run the confirmation walk. Returns the resolved
source value and the calls issued. -/
def directWocFunding (o : WocOracle) (sats : Nat) : Except String Nat × List NetCall :=
  if ¬ o.unspentOk then (.error "Failed to fetch UTXOs", [NetCall.getUnspent])
  else
    match (o.utxos.filter (fun u => sats + 200 ≤ u.value)).head? with
    | none =>
      (.error ("Insufficient funds. Need " ++ (toString (sats + 200) ++ " sats.")),
       [NetCall.getUnspent])
    | some u =>
      if o.rawHex u.txHash then
        (.ok u.value,
         NetCall.getUnspent :: NetCall.getTxHex u.txHash :: wocProofWalk o u.txHash 10)
      else (.error "Failed to fetch source tx", [NetCall.getUnspent, NetCall.getTxHex u.txHash])

/-- The funding resolution of `buildDirectPayment` lines 1261-1318: use the
stored frontier when it exists, parses, covers `sats + 200` and
reconstructs (any failure in the `try` block falls through), otherwise fall
back to the WhatsOnChain path. The stored branch issues no network call. -/
def directFunding (stored : StoredFile) (o : WocOracle) (sats : Nat) :
    Except String Nat × List NetCall :=
  match stored with
  | .good rec =>
    if sats + 200 ≤ rec.satoshis then
      match reconstructFromChain rec with
      | some _ => (.ok rec.satoshis, [])
      | none => directWocFunding o sats
    else directWocFunding o sats
  | _ => directWocFunding o sats

/-- `buildDirectPayment` end to end at the level of funding, fee/change and
network traffic: resolve the source, build the outputs (lines 1324-1354),
then broadcast best-effort (`POST /tx/raw`, lines 1372-1383). -/
def buildDirectPaymentFull (stored : StoredFile) (o : WocOracle) (sats : Nat)
    (senderH recipH : List Nat) : Except String BuiltPayment × List NetCall :=
  match directFunding stored o sats with
  | (.error e, calls) => (.error e, calls)
  | (.ok sourceValue, calls) =>
    match buildPaymentOutputs sourceValue sats senderH recipH with
    | .error e => (.error e, calls)
    | .ok b => (.ok b, calls ++ [NetCall.postRawTx])

/-- The funding tag of a successful `buildRealOverlayTransaction`. -/
inductive Funded where
  | storedBeef : Funded
  | real : Funded
  | walletInternal : Funded
  | synthetic : Funded
deriving DecidableEq, Repr

/-- The tier environment of `buildRealOverlayTransaction`: the stored
frontier file, whether `buildFromStoredBeef` succeeds once attempted,
the indexer oracle, whether `buildRealFundedTx` succeeds once attempted,
the wallet balance and whether `createAction` succeeds, the network name and
the `ALLOW_SYNTHETIC` environment variable. -/
structure OverlayTierEnv where
  stored : StoredFile
  storedBuildOk : Bool
  woc : WocOracle
  realBuildOk : Bool
  walletBalance : Nat
  walletCreateOk : Bool
  network : String
  allowSynthetic : String

/-- The stored-frontier usability test of line 330:
`storedChange && storedChange.txHex && storedChange.satoshis >= 200` (the
parsed record models a present `txHex`). -/
def storedTierUsable (e : OverlayTierEnv) : Bool :=
  match e.stored with
  | .good rec => 200 ≤ rec.satoshis
  | _ => false

/-- `buildSyntheticTx`'s guard (lines 666-670): refused outright on mainnet
unless the `ALLOW_SYNTHETIC` environment variable is exactly `"true"`;
otherwise the fabricated self-funded transaction is produced. -/
def buildSyntheticTxM (network allowSynthetic : String) : Except String Funded :=
  if network = "mainnet" ∧ allowSynthetic ≠ "true" then
    .error "No funds available. Import a UTXO first: overlay-cli import <txid>"
  else .ok .synthetic

/-- Tiers 3 and 4 of `buildRealOverlayTransaction` (lines 357-362): wallet
`createAction` (which throws below a balance of 100 or when the action
fails), then the guarded synthetic fallback. -/
def overlayWalletTier (e : OverlayTierEnv) (tr : List String) :
    Except String Funded × List String :=
  if 100 ≤ e.walletBalance ∧ e.walletCreateOk then
    (.ok .walletInternal, tr ++ ["wallet-internal"])
  else (buildSyntheticTxM e.network e.allowSynthetic, tr ++ ["wallet-internal", "synthetic"])

/-- Tier 2 of `buildRealOverlayTransaction` (lines 339-355): the unspent
query (errors swallowed into an empty list), the `value >= 200` filter, and
`buildRealFundedTx` on the first candidate; any failure falls through to the
wallet tier. The trace records the tier as attempted because the unspent
fetch is issued on entry. -/
def overlayWocTier (e : OverlayTierEnv) (tr : List String) :
    Except String Funded × List String :=
  if (if e.woc.unspentOk then e.woc.utxos else []).filter (fun u => 200 ≤ u.value) ≠ [] then
    if e.realBuildOk then (.ok .real, tr ++ ["indexer-query"])
    else overlayWalletTier e (tr ++ ["indexer-query"])
  else overlayWalletTier e (tr ++ ["indexer-query"])

/-- The tiered dispatch of `buildRealOverlayTransaction` (lines 321-363):
stored frontier first (its failure logged and swallowed), then the
WhatsOnChain tier, then wallet `createAction`, then the synthetic fallback.
The second component is the trace of attempted tiers. -/
def buildRealOverlay (e : OverlayTierEnv) : Except String Funded × List String :=
  if storedTierUsable e then
    if e.storedBuildOk then (.ok .storedBeef, ["stored-beef"])
    else overlayWocTier e ["stored-beef"]
  else overlayWocTier e []

/-! ## Message authenticator and dispatcher (`signRelayMessage` /
`verifyRelaySignature` lines 1714-1738, `processMessage` lines 2010-2104)

The digest is `sha256(to + type + JSON.stringify(payload))`. SHA-256 and
ECDSA are the external SDK's; they are modelled as an idealized collision-free
hash (injective by construction) and an idealized signature that attests
exactly to a signer key and a digest. A payload is modelled by its JSON
serialization (distinct wire payloads have distinct serializations) together
with its `serviceId` field. -/

/-- Idealized collision-free model of the external SHA-256: an injective
digest function. Only injectivity and recomputability are used. -/
def sha256M (s : String) : String := s

/-- The signing preimage `to + type + JSON.stringify(payload)` of lines
1716 and 1726. -/
def relayPreimage (toKey msgType payloadJson : String) : String :=
  toKey ++ (msgType ++ payloadJson)

/-- An idealized DER signature: it attests to the signer's key and the
digest that was signed. -/
structure SigM where
  signer : String
  digest : String
deriving DecidableEq, Repr

/-- `signRelayMessage` (lines 1715-1720): sign
`sha256(to + type + JSON.stringify(payload))` with the sender's key. -/
def signRelayMessage (signerKey toKey msgType payloadJson : String) : SigM :=
  ⟨signerKey, sha256M (relayPreimage toKey msgType payloadJson)⟩

/-- An inbound payload: its JSON serialization and its `serviceId` field. -/
structure PayloadM where
  serialized : String
  serviceId : Option String
deriving DecidableEq, Repr

/-- An inbound relay message. -/
structure MsgM where
  mid : String
  mfrom : String
  mto : String
  mtype : String
  payload : PayloadM
  signature : Option SigM
deriving DecidableEq, Repr

/-- `verifyRelaySignature` (lines 1723-1738): recompute the digest and check
the signature against the sender's public key. -/
def verifyRelaySignature (fromKey toKey msgType payloadJson : String)
    (sig : Option SigM) : Bool :=
  match sig with
  | none => false
  | some s =>
    s.signer == fromKey && s.digest == sha256M (relayPreimage toKey msgType payloadJson)

/-- The signature check computed at the top of `processMessage` (lines
2012-2014): `none` models JS `valid: null` for an unsigned message. -/
def msgSigValid (msg : MsgM) : Option Bool :=
  match msg.signature with
  | none => none
  | some _ =>
    some (verifyRelaySignature msg.mfrom msg.mto msg.mtype msg.payload.serialized
      msg.signature)

/-- The dispatcher's outcome for one message: the action taken, the rejection
reason when any, whether the message is acknowledged, and the service id
dispatched to when a service handler runs. -/
structure PMResult where
  action : String
  reason : Option String
  ack : Bool
  servicedId : Option String
deriving DecidableEq, Repr

/-- The service ids with a registered handler (lines 2051-2064). -/
def knownServices : List String :=
  ["tell-joke", "code-review", "web-research", "translate", "api-proxy",
   "roulette", "memory-store"]

/-- `processMessage` (lines 2010-2104): the signature gate first — a
`service-request` whose signature check is not exactly `true` is rejected
with `invalid-signature` and still acknowledged — then ping auto-reply,
service dispatch by `payload.serviceId` (unknown services are left
unacknowledged), pong and service-response receipt, and the unhandled
fallback. Handler effects are out of scope; the dispatch records which
handler runs (each handler acknowledges the message it consumes). -/
def processMessage (msg : MsgM) : PMResult :=
  if msg.mtype = "service-request" ∧ msgSigValid msg ≠ some true then
    { action := "rejected", reason := some "invalid-signature", ack := true,
      servicedId := none }
  else if msg.mtype = "ping" then
    { action := "replied-pong", reason := none, ack := true, servicedId := none }
  else if msg.mtype = "service-request" then
    match msg.payload.serviceId with
    | some sid =>
      if sid ∈ knownServices then
        { action := "service-handled", reason := none, ack := true, servicedId := some sid }
      else
        { action := "unhandled", reason := none, ack := false, servicedId := some sid }
    | none =>
      { action := "unhandled", reason := none, ack := false, servicedId := none }
  else if msg.mtype = "pong" then
    { action := "received", reason := none, ack := true, servicedId := none }
  else if msg.mtype = "service-response" then
    { action := "received", reason := none, ack := true, servicedId := none }
  else
    { action := "unhandled", reason := none, ack := false, servicedId := none }

/-! ## Concrete instances used by the witnesses -/

/-- A transaction paying 4 satoshis to the all-ones 20-byte hash. -/
def w1tx : TxV :=
  ⟨"t1", [⟨p2pkhLock (List.replicate 20 1), 4⟩]⟩

/-- A stored frontier of 500 satoshis with an empty source chain. -/
def c3rec : StoredChangeRec :=
  ⟨⟨"w", false⟩, "w", 1, 500, []⟩

/-- An indexer oracle that answers nothing. -/
def c3oracle : WocOracle :=
  ⟨false, [], fun _ => none, fun _ => false, fun _ => none⟩

/-- A tampered service request: signed over payload `"x0"`, delivered with
payload `"x1"`. -/
def c7msg : MsgM :=
  ⟨"m1", "02aa", "03bb", "service-request", ⟨"x1", none⟩,
    some (signRelayMessage "02aa" "03bb" "service-request" "x0")⟩

/-- A two-ancestor chain whose confirmed root carries a merkle proof. -/
def c5tx : TxC :=
  .node ⟨"c", true⟩
    (.node ⟨"b", true⟩ (.leaf ⟨"a", false⟩ (some ⟨840000, [1, 2, 255]⟩)) none)
    none

/-! ## Helper lemmas -/

/-- Splitting the `underpaid: …` reason around its `underpaid` substring. -/
theorem strSplit_underpaid (X : String) :
    "underpaid: " ++ X = "" ++ ("underpaid" ++ (": " ++ X)) := by
  rw [String.empty_append, ← String.append_assoc]
  rfl

/-- Splitting the `output underpaid: …` reason around its `underpaid`
substring. -/
theorem strSplit_output_underpaid (X : String) :
    "output underpaid: " ++ X = "output " ++ ("underpaid" ++ (": " ++ X)) := by
  rw [← String.append_assoc, ← String.append_assoc]
  rfl

/-! ## Claim theorems -/

/-- Claim C1: for an inbound payment bundle that decodes, with a nonzero
claimed amount: a matching output paying `minimum - 1` is rejected with a
reason containing `underpaid`; a matching output paying exactly the minimum
(with the claimed amount also at least the minimum) is accepted; with no
matching output the rejection reason is `no matching output`; and every
rejection is a structured result carrying an error string (the verifier
never throws). -/
theorem claim1_verifier_thresholds :
    (∀ (p : PaymentObj) (minSats : Nat) (sk sid : String) (h160 : List Nat)
       (sf : Option String) (bb : BeefBytes) (tx : TxV) (i : Nat),
       p.beef = some bb → decodeBeef bb = .ok tx → p.satoshis ≠ 0 → 1 ≤ minSats →
       findPaymentOutput tx.outputs h160 = some (i, minSats - 1) →
       (verifyAndAcceptPayment (some p) minSats sk sid h160 sf).accepted = false ∧
       ∃ a b, (verifyAndAcceptPayment (some p) minSats sk sid h160 sf).error =
         some (a ++ ("underpaid" ++ b))) ∧
    (∀ (p : PaymentObj) (minSats : Nat) (sk sid : String) (h160 : List Nat)
       (sf : Option String) (bb : BeefBytes) (tx : TxV) (i : Nat),
       p.beef = some bb → decodeBeef bb = .ok tx → p.satoshis ≠ 0 →
       minSats ≤ p.satoshis →
       findPaymentOutput tx.outputs h160 = some (i, minSats) →
       (verifyAndAcceptPayment (some p) minSats sk sid h160 sf).accepted = true) ∧
    (∀ (p : PaymentObj) (minSats : Nat) (sk sid : String) (h160 : List Nat)
       (sf : Option String) (bb : BeefBytes) (tx : TxV),
       p.beef = some bb → decodeBeef bb = .ok tx → p.satoshis ≠ 0 →
       minSats ≤ p.satoshis →
       findPaymentOutput tx.outputs h160 = none →
       verifyAndAcceptPayment (some p) minSats sk sid h160 sf =
         verifyErr "no matching output") ∧
    (∀ (pay : Option PaymentObj) (minSats : Nat) (sk sid : String)
       (h160 : List Nat) (sf : Option String),
       (verifyAndAcceptPayment pay minSats sk sid h160 sf).accepted = false →
       ((verifyAndAcceptPayment pay minSats sk sid h160 sf).error).isSome = true) := by
  refine ⟨?_, ?_, ?_, ?_⟩
  · intro p minSats sk sid h160 sf bb tx i hbeef hdec hs0 hmin hfind
    obtain ⟨pb, ps⟩ := p
    simp only at hbeef hs0
    subst hbeef
    by_cases hlt : ps < minSats
    · have hred : verifyAndAcceptPayment (some ⟨some bb, ps⟩) minSats sk sid h160 sf =
          verifyErr ("underpaid: " ++ (toString ps ++ (" < " ++ toString minSats))) := by
        simp only [verifyAndAcceptPayment]
        rw [if_neg hs0, if_pos hlt]
      rw [hred]
      refine ⟨rfl, "", ": " ++ (toString ps ++ (" < " ++ toString minSats)), ?_⟩
      exact congrArg some (strSplit_underpaid _)
    · have hred : verifyAndAcceptPayment (some ⟨some bb, ps⟩) minSats sk sid h160 sf =
          verifyErr ("output underpaid: " ++
            (toString (minSats - 1) ++ (" < " ++ toString minSats))) := by
        simp only [verifyAndAcceptPayment]
        rw [if_neg hs0, if_neg hlt, hdec]
        simp only [hfind]
        rw [if_pos (by omega)]
      rw [hred]
      refine ⟨rfl, "output ",
        ": " ++ (toString (minSats - 1) ++ (" < " ++ toString minSats)), ?_⟩
      exact congrArg some (strSplit_output_underpaid _)
  · intro p minSats sk sid h160 sf bb tx i hbeef hdec hs0 hge hfind
    obtain ⟨pb, ps⟩ := p
    simp only at hbeef hs0 hge
    subst hbeef
    have hred : verifyAndAcceptPayment (some ⟨some bb, ps⟩) minSats sk sid h160 sf =
        match sf with
        | none =>
          { accepted := true, txid := some tx.txid, satoshis := minSats,
            outputIndex := (i : Int), walletAccepted := true, error := none,
            ledger := some ⟨tx.txid, i, minSats, sid, sk⟩ }
        | some m =>
          { accepted := true, txid := some tx.txid, satoshis := minSats,
            outputIndex := (i : Int), walletAccepted := false,
            error := some ("payment store failed: " ++ m), ledger := none } := by
      simp only [verifyAndAcceptPayment]
      rw [if_neg hs0, if_neg (by omega), hdec]
      simp only [hfind]
      rw [if_neg (by omega)]
    rw [hred]
    cases sf <;> rfl
  · intro p minSats sk sid h160 sf bb tx hbeef hdec hs0 hge hfind
    obtain ⟨pb, ps⟩ := p
    simp only at hbeef hs0 hge
    subst hbeef
    simp only [verifyAndAcceptPayment]
    rw [if_neg hs0, if_neg (by omega), hdec]
    simp only [hfind]
  · intro pay minSats sk sid h160 sf hacc
    rcases pay with _ | ⟨pb, ps⟩
    · rfl
    rcases pb with _ | bb
    · rfl
    by_cases hs0 : ps = 0
    · simp only [verifyAndAcceptPayment]
      rw [if_pos hs0]
      rfl
    by_cases hlt : ps < minSats
    · simp only [verifyAndAcceptPayment]
      rw [if_neg hs0, if_pos hlt]
      rfl
    rcases hdec : decodeBeef bb with e | tx
    · simp only [verifyAndAcceptPayment] at hacc ⊢
      rw [if_neg hs0, if_neg hlt, hdec]
      rfl
    rcases hfind : findPaymentOutput tx.outputs h160 with _ | ⟨i, psats⟩
    · simp only [verifyAndAcceptPayment]
      rw [if_neg hs0, if_neg hlt, hdec]
      simp only [hfind]
      rfl
    by_cases hout : psats < minSats
    · simp only [verifyAndAcceptPayment]
      rw [if_neg hs0, if_neg hlt, hdec]
      simp only [hfind]
      rw [if_pos hout]
      rfl
    · exfalso
      have : (verifyAndAcceptPayment (some ⟨some bb, ps⟩) minSats sk sid h160 sf).accepted
          = true := by
        simp only [verifyAndAcceptPayment]
        rw [if_neg hs0, if_neg hlt, hdec]
        simp only [hfind]
        rw [if_neg hout]
        cases sf <;> rfl
      rw [hacc] at this
      exact Bool.false_ne_true this

/-- Witness for claim C1: instantiating the underpaid case at minimum 5 with
an output paying 4 satoshis. -/
theorem claim1_verifier_thresholds_witness :
    (verifyAndAcceptPayment (some ⟨some (.parsed w1tx), 5⟩) 5 "s" "svc"
      (List.replicate 20 1) none).accepted = false ∧
    ∃ a b, (verifyAndAcceptPayment (some ⟨some (.parsed w1tx), 5⟩) 5 "s" "svc"
      (List.replicate 20 1) none).error = some (a ++ ("underpaid" ++ b)) :=
  claim1_verifier_thresholds.1 ⟨some (.parsed w1tx), 5⟩ 5 "s" "svc"
    (List.replicate 20 1) none (.parsed w1tx) w1tx 0 rfl rfl (by decide)
    (by decide) (by decide)

/-- Claim C9: when every verification check passes but the append to the
received-payments ledger fails, the verifier still reports `accepted = true`,
with `walletAccepted = false`, an error string describing the store failure,
and no ledger entry: acceptance is not atomic with the durable credit
record. -/
theorem claim9_store_failure_not_atomic :
    ∀ (p : PaymentObj) (minSats : Nat) (sk sid : String) (h160 : List Nat)
      (m : String) (bb : BeefBytes) (tx : TxV) (i ps : Nat),
      p.beef = some bb → decodeBeef bb = .ok tx → p.satoshis ≠ 0 →
      minSats ≤ p.satoshis →
      findPaymentOutput tx.outputs h160 = some (i, ps) → minSats ≤ ps →
      verifyAndAcceptPayment (some p) minSats sk sid h160 (some m) =
        { accepted := true, txid := some tx.txid, satoshis := ps,
          outputIndex := (i : Int), walletAccepted := false,
          error := some ("payment store failed: " ++ m), ledger := none } := by
  intro p minSats sk sid h160 m bb tx i ps hbeef hdec hs0 hge hfind hout
  obtain ⟨pb, pcl⟩ := p
  simp only at hbeef hs0 hge
  subst hbeef
  simp only [verifyAndAcceptPayment]
  rw [if_neg hs0, if_neg (by omega), hdec]
  simp only [hfind]
  rw [if_neg (by omega)]

/-- Witness for claim C9: the concrete transaction paying 4 satoshis,
verified at minimum 4 with a failing ledger append. -/
theorem claim9_store_failure_not_atomic_witness :
    verifyAndAcceptPayment (some ⟨some (.parsed w1tx), 4⟩) 4 "s" "svc"
      (List.replicate 20 1) (some "disk full") =
      { accepted := true, txid := some "t1", satoshis := 4, outputIndex := 0,
        walletAccepted := false, error := some ("payment store failed: " ++ "disk full"),
        ledger := none } :=
  claim9_store_failure_not_atomic ⟨some (.parsed w1tx), 4⟩ 4 "s" "svc"
    (List.replicate 20 1) "disk full" (.parsed w1tx) w1tx 0 4 rfl rfl
    (by decide) (by decide) (by decide) (by decide)

/-- Claim C10: a claimed satoshis field of 0 (the model of both a zero and an
absent claim, both falsy to the source's test) is rejected as `no payment`
whatever the bundle bytes hold — including undecodable bundles, since the
rejection happens before any decode is attempted — so the reason is never an
`underpaid` one. -/
theorem claim10_no_payment_precedence :
    ∀ (beef : Option BeefBytes) (minSats : Nat) (sk sid : String)
      (h160 : List Nat) (sf : Option String),
      verifyAndAcceptPayment (some ⟨beef, 0⟩) minSats sk sid h160 sf =
        verifyErr "no payment" := by
  intro beef minSats sk sid h160 sf
  rcases beef with _ | bb
  · rfl
  · simp only [verifyAndAcceptPayment]
    rw [if_pos trivial]

/-- Claim C2 counterexample: `buildFromStoredBeef` (one of the claim's cited
builds, overlay-cli.mjs lines 433-439) violates the stated dust rule at a
resolved input of 335 satoshis: with amount 0 and fee 200 the remainder is
`335 - 0 - 200 = 135 < 136`, yet a change output of 135 satoshis IS appended
(its test is `changeSats > 0`, not the 136-satoshi threshold) and saved as
the new frontier — where the claim says no change output is produced at
`amount + fee + 135`. -/
theorem claim2_counterexample :
    (buildFromStoredBeefModel 335 (List.replicate 20 2) (opReturnScript [1] [2])).outputs =
      [⟨opReturnScript [1] [2], 0⟩, ⟨p2pkhLock (List.replicate 20 2), 135⟩] ∧
    ((335 : Int) - 0 - 200 < 136) ∧
    (buildFromStoredBeefModel 335 (List.replicate 20 2)
      (opReturnScript [1] [2])).changeSaved = some 135 := by
  refine ⟨rfl, by decide, rfl⟩

/-- Claim C2 (amended): for the direct-payment builder (`buildDirectPayment`
lines 1339-1354) the claim holds as stated — a change output is appended iff
`sourceValue - amount - fee ≥ 136`, an input of `amount + fee + 135` yields
no change output (the remainder folds into the fee), and `amount + fee + 136`
yields a change output of exactly 136 satoshis, saved as the new frontier.
(The stored-BEEF overlay builder instead appends any positive remainder; see
the counterexample.) -/
theorem claim2_dust_rule_direct :
    ∀ (sv sats : Nat) (sH rH : List Nat) (b : BuiltPayment),
      buildPaymentOutputs sv sats sH rH = .ok b →
      (b.outputs.length = 2 ↔ 136 ≤ (sv : Int) - sats - directFee) ∧
      (sv = sats + directFee + 135 →
        b.outputs = [⟨p2pkhLock rH, sats⟩] ∧ b.changeSaved = none) ∧
      (sv = sats + directFee + 136 →
        b.outputs = [⟨p2pkhLock rH, sats⟩, ⟨p2pkhLock sH, 136⟩] ∧
        b.changeSaved = some 136) := by
  intro sv sats sH rH b hok
  simp only [buildPaymentOutputs] at hok
  by_cases hin : sv < sats + directFee
  · rw [if_pos hin] at hok
    exact absurd hok (by simp)
  · rw [if_neg hin] at hok
    injection hok with hb
    subst hb
    refine ⟨?_, ?_, ?_⟩
    · by_cases hch : 136 ≤ sv - sats - directFee
      · simp only [if_pos hch, List.length_cons, List.length_nil]
        exact ⟨fun _ => by omega, fun _ => by trivial⟩
      · simp only [if_neg hch, List.length_cons, List.length_nil]
        exact ⟨fun h2 => absurd h2 (by decide), fun hInt => absurd hInt (by omega)⟩
    · intro hsv
      subst hsv
      have hch : ¬ 136 ≤ sats + directFee + 135 - sats - directFee := by omega
      simp [hch]
    · intro hsv
      subst hsv
      have hch : 136 ≤ sats + directFee + 136 - sats - directFee := by omega
      have hval : sats + directFee + 136 - sats - directFee = 136 := by omega
      simp [hch, hval]

/-- Witness for claim C2 (amended): a concrete successful build at source
value 299 = 50 + 113 + 136 paying 50 satoshis. -/
theorem claim2_dust_rule_direct_witness :
    ((⟨[⟨p2pkhLock (List.replicate 20 1), 50⟩, ⟨p2pkhLock (List.replicate 20 2), 136⟩],
        113, 136, some 136⟩ : BuiltPayment).outputs.length = 2 ↔
      136 ≤ (299 : Int) - 50 - directFee) ∧
    (299 = 50 + directFee + 135 →
      (⟨[⟨p2pkhLock (List.replicate 20 1), 50⟩, ⟨p2pkhLock (List.replicate 20 2), 136⟩],
        113, 136, some 136⟩ : BuiltPayment).outputs =
        [⟨p2pkhLock (List.replicate 20 1), 50⟩] ∧
      (⟨[⟨p2pkhLock (List.replicate 20 1), 50⟩, ⟨p2pkhLock (List.replicate 20 2), 136⟩],
        113, 136, some 136⟩ : BuiltPayment).changeSaved = none) ∧
    (299 = 50 + directFee + 136 →
      (⟨[⟨p2pkhLock (List.replicate 20 1), 50⟩, ⟨p2pkhLock (List.replicate 20 2), 136⟩],
        113, 136, some 136⟩ : BuiltPayment).outputs =
        [⟨p2pkhLock (List.replicate 20 1), 50⟩, ⟨p2pkhLock (List.replicate 20 2), 136⟩] ∧
      (⟨[⟨p2pkhLock (List.replicate 20 1), 50⟩, ⟨p2pkhLock (List.replicate 20 2), 136⟩],
        113, 136, some 136⟩ : BuiltPayment).changeSaved = some 136) :=
  claim2_dust_rule_direct 299 50 (List.replicate 20 2) (List.replicate 20 1) _ rfl

/-- The fee constant of `buildDirectPayment`:
`max(ceil((148 + 34 * 2 + 10) * 0.5), 50) = max(113, 50) = 113`. -/
theorem directFee_eq : directFee = 113 := rfl

/-- `P2PKH().lock(h)` for a 20-byte hash matches the verifier's own
pattern scan. -/
theorem isP2pkhTo_lock (h : List Nat) (h20 : h.length = 20) :
    isP2pkhTo (p2pkhLock h) h = true := by
  simp [isP2pkhTo, p2pkhLock, h20]

/-- Claim C8 counterexample: building 50 satoshis from a 500-satoshi cached
frontier charges a fee of `max(ceil(226 * 0.5), 50) = 113` satoshis — the
`estimatedByteSize` of the claim's own formula is `148 + 34 * 2 + 10 = 226`,
giving 113, not 74 — and the change output is `500 - 50 - 113 = 337`
satoshis, not 376. -/
theorem claim8_counterexample :
    buildPaymentOutputs 500 50 (List.replicate 20 3) (List.replicate 20 4) =
      .ok ⟨[⟨p2pkhLock (List.replicate 20 4), 50⟩,
            ⟨p2pkhLock (List.replicate 20 3), 337⟩], 113, 337, some 337⟩ ∧
    directFee = 113 ∧ directFee ≠ 74 ∧ (500 - 50 - directFee : Nat) ≠ 376 :=
  ⟨rfl, rfl, by decide, by decide⟩

/-- Claim C8 (amended): for a payment of 50 satoshis built from a cached
frontier of 500 satoshis, the fee charged is 113 satoshis (per the fee
formula `max(ceil(estimatedByteSize * ratePerByte), minimumFee)` with
`estimatedByteSize = 148 + 34 * 2 + 10 = 226` and rate 0.5), the resulting
change output is `500 - 50 - 113 = 337` satoshis and is saved as the new
frontier; the recipient verifying the resulting bundle with
`minimumSatoshis = 50` accepts it and records a ledger entry with
`satoshis = 50`. -/
theorem claim8_scenario :
    ∀ (sH rH : List Nat) (txid sk sid : String), rH.length = 20 →
      ∀ b : BuiltPayment, buildPaymentOutputs 500 50 sH rH = .ok b →
      b.fee = 113 ∧ b.change = 337 ∧ b.changeSaved = some 337 ∧
      verifyAndAcceptPayment (some ⟨some (.parsed ⟨txid, b.outputs⟩), 50⟩) 50
          sk sid rH none =
        { accepted := true, txid := some txid, satoshis := 50, outputIndex := 0,
          walletAccepted := true, error := none,
          ledger := some ⟨txid, 0, 50, sid, sk⟩ } := by
  intro sH rH txid sk sid h20 b hok
  simp only [buildPaymentOutputs, directFee_eq] at hok
  rw [if_neg (by omega)] at hok
  injection hok with hb
  subst hb
  have hch : (136 : Nat) ≤ 500 - 50 - 113 := by omega
  refine ⟨rfl, rfl, by simp only [if_pos hch], ?_⟩
  have hfind : findPaymentOutput
      (⟨p2pkhLock rH, 50⟩ :: (if 136 ≤ 500 - 50 - 113 then [⟨p2pkhLock sH, 500 - 50 - 113⟩] else []))
      rH = some (0, 50) := by
    simp only [findPaymentOutput, findPaymentOutputAux, isP2pkhTo_lock rH h20, if_pos trivial]
  simp only [verifyAndAcceptPayment, decodeBeef]
  rw [if_neg (by omega), if_neg (by omega)]
  simp only [hfind]
  rw [if_neg (by omega)]
  rfl

/-- Witness for claim C8 (amended): the scenario at concrete 20-byte hashes;
the build result is supplied explicitly and checked by `rfl`. -/
theorem claim8_scenario_witness :
    (⟨[⟨p2pkhLock (List.replicate 20 4), 50⟩, ⟨p2pkhLock (List.replicate 20 3), 337⟩],
        113, 337, some 337⟩ : BuiltPayment).fee = 113 ∧
    (⟨[⟨p2pkhLock (List.replicate 20 4), 50⟩, ⟨p2pkhLock (List.replicate 20 3), 337⟩],
        113, 337, some 337⟩ : BuiltPayment).change = 337 ∧
    (⟨[⟨p2pkhLock (List.replicate 20 4), 50⟩, ⟨p2pkhLock (List.replicate 20 3), 337⟩],
        113, 337, some 337⟩ : BuiltPayment).changeSaved = some 337 ∧
    verifyAndAcceptPayment
        (some ⟨some (.parsed ⟨"t8",
          (⟨[⟨p2pkhLock (List.replicate 20 4), 50⟩, ⟨p2pkhLock (List.replicate 20 3), 337⟩],
            113, 337, some 337⟩ : BuiltPayment).outputs⟩), 50⟩) 50 "sk" "svc"
        (List.replicate 20 4) none =
      { accepted := true, txid := some "t8", satoshis := 50, outputIndex := 0,
        walletAccepted := true, error := none,
        ledger := some ⟨"t8", 0, 50, "svc", "sk"⟩ } :=
  claim8_scenario (List.replicate 20 3) (List.replicate 20 4) "t8" "sk" "svc"
    (by decide) _ rfl

/-- Claim C6 counterexample: on an empty `siblingNodes` array the
reconstructor does NOT fail — no `MalformedProofError` (or any error type of
that name) exists anywhere in the code and `buildMerklePathFromTSC` performs
no validation — it returns a one-level path whose level-0 sibling entry
carries no hash, no duplicate flag and no subject flag. -/
theorem claim6_counterexample :
    buildMerklePathFromTSC "aa" 0 [] 7 =
      ⟨7, [[⟨0, some "aa", true, false⟩, ⟨1, none, false, false⟩]]⟩ ∧
    wellFormedNode ⟨1, none, false, false⟩ = false :=
  ⟨rfl, rfl⟩

/-- Claim C6 (amended): `buildMerklePathFromTSC` performs no validation of
`siblingNodes`: on an empty array it returns (rather than failing with any
error of its own) a single-level path containing a malformed sibling entry —
offset `txIndex XOR 1` with no hash and no duplicate marker — leaving
rejection to the external `MerklePath` constructor it feeds; and on a
non-array input the `nodes.length` access throws a plain `TypeError`, not a
`MalformedProofError`, which names no error type present in the code. -/
theorem claim6_no_validation :
    ∀ (txid : String) (txIndex bh : Nat),
      (buildMerklePathFromTSC txid txIndex [] bh).path =
        [sortPair ⟨txIndex, some txid, true, false⟩
          ⟨txIndex ^^^ 1, none, false, false⟩] ∧
      (⟨txIndex ^^^ 1, none, false, false⟩ : PathNode) ∈
        sortPair ⟨txIndex, some txid, true, false⟩
          ⟨txIndex ^^^ 1, none, false, false⟩ ∧
      wellFormedNode ⟨txIndex ^^^ 1, none, false, false⟩ = false := by
  intro txid txIndex bh
  refine ⟨rfl, ?_, rfl⟩
  unfold sortPair
  split <;> simp

/-- The synthetic builder itself yields `synthetic` only past the mainnet
guard. -/
theorem syntheticTxM_ok (network allow : String)
    (h : buildSyntheticTxM network allow = .ok .synthetic) :
    network ≠ "mainnet" ∨ allow = "true" := by
  unfold buildSyntheticTxM at h
  by_cases hg : network = "mainnet" ∧ allow ≠ "true"
  · rw [if_pos hg] at h
    exact absurd h (by simp)
  · rcases not_and_or.mp hg with hn | ha
    · exact Or.inl hn
    · exact Or.inr (not_not.mp ha)

/-- The wallet tier produces `synthetic` only past the mainnet guard. -/
theorem walletTier_synthetic (e : OverlayTierEnv) (tr : List String)
    (h : (overlayWalletTier e tr).1 = .ok .synthetic) :
    e.network ≠ "mainnet" ∨ e.allowSynthetic = "true" := by
  unfold overlayWalletTier at h
  by_cases hw : 100 ≤ e.walletBalance ∧ e.walletCreateOk = true
  · rw [if_pos hw] at h
    exact absurd h (by simp)
  · rw [if_neg hw] at h
    exact syntheticTxM_ok _ _ h

/-- The indexer tier produces `synthetic` only past the mainnet guard. -/
theorem wocTier_synthetic (e : OverlayTierEnv) (tr : List String)
    (h : (overlayWocTier e tr).1 = .ok .synthetic) :
    e.network ≠ "mainnet" ∨ e.allowSynthetic = "true" := by
  unfold overlayWocTier at h
  by_cases h1 : (if e.woc.unspentOk then e.woc.utxos else []).filter
      (fun u => 200 ≤ u.value) ≠ []
  · rw [if_pos h1] at h
    by_cases h2 : e.realBuildOk = true
    · rw [if_pos h2] at h
      exact absurd h (by simp)
    · rw [if_neg h2] at h
      exact walletTier_synthetic e _ h
  · rw [if_neg h1] at h
    exact walletTier_synthetic e _ h

/-- Membership in the wallet tier's trace: inherited from the prefix, the
wallet attempt itself, or the synthetic attempt — the latter only when the
wallet tier fails. -/
theorem mem_walletTier_trace (s : String) (e : OverlayTierEnv) (tr : List String)
    (hs : s ∈ (overlayWalletTier e tr).2) :
    s ∈ tr ∨ s = "wallet-internal" ∨
      (s = "synthetic" ∧ ¬(100 ≤ e.walletBalance ∧ e.walletCreateOk = true)) := by
  unfold overlayWalletTier at hs
  by_cases hw : 100 ≤ e.walletBalance ∧ e.walletCreateOk = true
  · rw [if_pos hw] at hs
    rcases List.mem_append.mp hs with h | h
    · exact Or.inl h
    · exact Or.inr (Or.inl (by simpa using h))
  · rw [if_neg hw] at hs
    rcases List.mem_append.mp hs with h | h
    · exact Or.inl h
    · rcases (by simpa using h : s = "wallet-internal" ∨ s = "synthetic") with h1 | h1
      · exact Or.inr (Or.inl h1)
      · exact Or.inr (Or.inr ⟨h1, hw⟩)

/-- Membership in the indexer tier's trace: inherited from the prefix, the
indexer attempt itself, or a later tier — the latter only when the indexer
tier fails. -/
theorem mem_wocTier_trace (s : String) (e : OverlayTierEnv) (tr : List String)
    (hs : s ∈ (overlayWocTier e tr).2) :
    s ∈ tr ∨ s = "indexer-query" ∨
      (¬((if e.woc.unspentOk then e.woc.utxos else []).filter
          (fun u => 200 ≤ u.value) ≠ [] ∧ e.realBuildOk = true) ∧
        (s = "wallet-internal" ∨
          (s = "synthetic" ∧ ¬(100 ≤ e.walletBalance ∧ e.walletCreateOk = true)))) := by
  unfold overlayWocTier at hs
  by_cases h1 : (if e.woc.unspentOk then e.woc.utxos else []).filter
      (fun u => 200 ≤ u.value) ≠ []
  · rw [if_pos h1] at hs
    by_cases h2 : e.realBuildOk = true
    · rw [if_pos h2] at hs
      rcases List.mem_append.mp hs with h | h
      · exact Or.inl h
      · exact Or.inr (Or.inl (by simpa using h))
    · rw [if_neg h2] at hs
      rcases mem_walletTier_trace s e _ hs with h | h | h
      · rcases List.mem_append.mp h with h' | h'
        · exact Or.inl h'
        · exact Or.inr (Or.inl (by simpa using h'))
      · exact Or.inr (Or.inr ⟨fun hc => h2 hc.2, Or.inl h⟩)
      · exact Or.inr (Or.inr ⟨fun hc => h2 hc.2, Or.inr h⟩)
  · rw [if_neg h1] at hs
    rcases mem_walletTier_trace s e _ hs with h | h | h
    · rcases List.mem_append.mp h with h' | h'
      · exact Or.inl h'
      · exact Or.inr (Or.inl (by simpa using h'))
    · exact Or.inr (Or.inr ⟨fun hc => h1 hc.1, Or.inl h⟩)
    · exact Or.inr (Or.inr ⟨fun hc => h1 hc.1, Or.inr h⟩)

/-- Membership in the full tier trace of `buildRealOverlayTransaction`:
each tier appears only under the failure of every earlier tier. -/
theorem mem_overlay_trace (s : String) (e : OverlayTierEnv)
    (hs : s ∈ (buildRealOverlay e).2) :
    s = "stored-beef" ∨
      (¬(storedTierUsable e = true ∧ e.storedBuildOk = true) ∧
        (s = "indexer-query" ∨
          (¬((if e.woc.unspentOk then e.woc.utxos else []).filter
              (fun u => 200 ≤ u.value) ≠ [] ∧ e.realBuildOk = true) ∧
            (s = "wallet-internal" ∨
              (s = "synthetic" ∧
                ¬(100 ≤ e.walletBalance ∧ e.walletCreateOk = true)))))) := by
  unfold buildRealOverlay at hs
  by_cases h1 : storedTierUsable e = true
  · rw [if_pos h1] at hs
    by_cases h2 : e.storedBuildOk = true
    · rw [if_pos h2] at hs
      exact Or.inl (by simpa using hs)
    · rw [if_neg h2] at hs
      rcases mem_wocTier_trace s e _ hs with h | h | h
      · exact Or.inl (by simpa using h)
      · exact Or.inr ⟨fun hc => h2 hc.2, Or.inl h⟩
      · exact Or.inr ⟨fun hc => h2 hc.2, Or.inr h⟩
  · rw [if_neg h1] at hs
    rcases mem_wocTier_trace s e _ hs with h | h | h
    · exact absurd h (by simp)
    · exact Or.inr ⟨fun hc => h1 hc.1, Or.inl h⟩
    · exact Or.inr ⟨fun hc => h1 hc.1, Or.inr h⟩

/-- Claim C4: the synthetic funding tier raises an error (producing no
transaction) on mainnet without the explicit `ALLOW_SYNTHETIC=true`
override; a synthetic transaction is only ever produced off mainnet or with
the override set — both for the tier itself and through the whole tiered
resolution. -/
theorem claim4_synthetic_guard :
    (∀ allow : String, allow ≠ "true" →
      buildSyntheticTxM "mainnet" allow =
        .error "No funds available. Import a UTXO first: overlay-cli import <txid>") ∧
    (∀ network allow : String, buildSyntheticTxM network allow = .ok .synthetic →
      network ≠ "mainnet" ∨ allow = "true") ∧
    (∀ e : OverlayTierEnv, (buildRealOverlay e).1 = .ok .synthetic →
      e.network ≠ "mainnet" ∨ e.allowSynthetic = "true") := by
  refine ⟨?_, ?_, ?_⟩
  · intro allow h
    unfold buildSyntheticTxM
    rw [if_pos ⟨rfl, h⟩]
  · exact syntheticTxM_ok
  · intro e h
    unfold buildRealOverlay at h
    by_cases h1 : storedTierUsable e = true
    · rw [if_pos h1] at h
      by_cases h2 : e.storedBuildOk = true
      · rw [if_pos h2] at h
        exact absurd h (by simp)
      · rw [if_neg h2] at h
        exact wocTier_synthetic e _ h
    · rw [if_neg h1] at h
      exact wocTier_synthetic e _ h

/-- Witness for claim C4: the guard at the empty override string. -/
theorem claim4_synthetic_guard_witness :
    buildSyntheticTxM "mainnet" "" =
      .error "No funds available. Import a UTXO first: overlay-cli import <txid>" :=
  claim4_synthetic_guard.1 "" (by decide)

/-- Claim C3: a persisted frontier that deserializes, reconstructs and covers
`amount + 200` resolves the funding of `buildDirectPayment` with no indexer
fetch (the only network call the full build then makes is the best-effort
broadcast `POST /tx/raw`); and in the tiered `buildRealOverlayTransaction`
the indexer tier, the wallet tier and the synthetic tier are each attempted
only when every earlier tier is unavailable or has failed. -/
theorem claim3_funding_tier_order :
    (∀ (rec : StoredChangeRec) (o : WocOracle) (sats : Nat) (sH rH : List Nat)
       (t : TxC),
       sats + 200 ≤ rec.satoshis → reconstructFromChain rec = some t →
       ∀ c ∈ (buildDirectPaymentFull (.good rec) o sats sH rH).2,
         c.isFetch = false) ∧
    (∀ e : OverlayTierEnv, "indexer-query" ∈ (buildRealOverlay e).2 →
       ¬(storedTierUsable e = true ∧ e.storedBuildOk = true)) ∧
    (∀ e : OverlayTierEnv, "wallet-internal" ∈ (buildRealOverlay e).2 →
       ¬(storedTierUsable e = true ∧ e.storedBuildOk = true) ∧
       ¬((if e.woc.unspentOk then e.woc.utxos else []).filter
           (fun u => 200 ≤ u.value) ≠ [] ∧ e.realBuildOk = true)) ∧
    (∀ e : OverlayTierEnv, "synthetic" ∈ (buildRealOverlay e).2 →
       ¬(storedTierUsable e = true ∧ e.storedBuildOk = true) ∧
       ¬((if e.woc.unspentOk then e.woc.utxos else []).filter
           (fun u => 200 ≤ u.value) ≠ [] ∧ e.realBuildOk = true) ∧
       ¬(100 ≤ e.walletBalance ∧ e.walletCreateOk = true)) := by
  refine ⟨?_, ?_, ?_, ?_⟩
  · intro rec o sats sH rH t hcov hrec c hc
    simp only [buildDirectPaymentFull, directFunding, hrec, if_pos hcov] at hc
    rcases hb : buildPaymentOutputs rec.satoshis sats sH rH with e | b <;>
      simp only [hb] at hc
    · simp at hc
    · simp at hc
      rw [hc]
      rfl
  · intro e h
    rcases mem_overlay_trace _ e h with h1 | ⟨hns, _⟩
    · exact absurd h1 (by decide)
    · exact hns
  · intro e h
    rcases mem_overlay_trace _ e h with h1 | ⟨hns, h2⟩
    · exact absurd h1 (by decide)
    · refine ⟨hns, ?_⟩
      rcases h2 with h2 | ⟨hwoc, _⟩
      · exact absurd h2 (by decide)
      · exact hwoc
  · intro e h
    rcases mem_overlay_trace _ e h with h1 | ⟨hns, h2⟩
    · exact absurd h1 (by decide)
    · refine ⟨hns, ?_⟩
      rcases h2 with h2 | ⟨hwoc, h3⟩
      · exact absurd h2 (by decide)
      · refine ⟨hwoc, ?_⟩
        rcases h3 with h3 | ⟨_, hw⟩
        · exact absurd h3 (by decide)
        · exact hw

/-- Witness for claim C3: with a 500-satoshi frontier and a dead indexer
oracle, a 50-satoshi build's only network call is the broadcast. -/
theorem claim3_funding_tier_order_witness :
    (buildDirectPaymentFull (.good c3rec) c3oracle 50 (List.replicate 20 2)
      (List.replicate 20 1)).2 = [NetCall.postRawTx] ∧
    NetCall.isFetch NetCall.postRawTx = false :=
  ⟨by decide,
   claim3_funding_tier_order.1 c3rec c3oracle 50 (List.replicate 20 2)
     (List.replicate 20 1) (.leaf ⟨"w", false⟩ none) (by decide) rfl
     NetCall.postRawTx (by decide)⟩

/-- Appending on the left is cancellable for strings. -/
theorem str_append_cancel_left (a b c : String) (h : a ++ b = a ++ c) : b = c := by
  have hd := congrArg String.data h
  simp only [String.data_append] at hd
  exact String.ext (List.append_cancel_left hd)

/-- Claim C7: a `service-request` whose payload differs from the payload its
signature was produced over (same sender, recipient and type) is rejected
with reason `invalid-signature` and still acknowledged; and a
`service-request` escapes rejection only when its signature verifies —
i.e. attests, under the sender's key, to the recomputed digest
`sha256(to ++ type ++ serialized payload)`. -/
theorem claim7_signature_gate :
    (∀ (msg : MsgM) (orig : String),
       msg.mtype = "service-request" →
       msg.signature = some (signRelayMessage msg.mfrom msg.mto msg.mtype orig) →
       orig ≠ msg.payload.serialized →
       processMessage msg =
         ⟨"rejected", some "invalid-signature", true, none⟩) ∧
    (∀ msg : MsgM, msg.mtype = "service-request" →
       (processMessage msg).action ≠ "rejected" →
       ∃ s, msg.signature = some s ∧ s.signer = msg.mfrom ∧
         s.digest = sha256M (relayPreimage msg.mto msg.mtype msg.payload.serialized)) := by
  constructor
  · intro msg orig ht hsig hne
    have hdig : sha256M (relayPreimage msg.mto msg.mtype orig) ≠
        sha256M (relayPreimage msg.mto msg.mtype msg.payload.serialized) := by
      unfold sha256M relayPreimage
      intro hcontra
      exact hne (str_append_cancel_left _ _ _ (str_append_cancel_left _ _ _ hcontra))
    have hval : msgSigValid msg = some false := by
      unfold msgSigValid
      rw [hsig]
      unfold verifyRelaySignature signRelayMessage
      simp [hdig]
    unfold processMessage
    rw [if_pos ⟨ht, by rw [hval]; simp⟩]
  · intro msg ht hact
    by_cases hv : msgSigValid msg = some true
    · unfold msgSigValid at hv
      rcases hsig : msg.signature with _ | s
      · rw [hsig] at hv
        exact absurd hv (by simp)
      · rw [hsig] at hv
        simp only [Option.some.injEq] at hv
        have hb := hv
        unfold verifyRelaySignature at hb
        simp only [Bool.and_eq_true, beq_iff_eq] at hb
        exact ⟨s, rfl, hb.1, hb.2⟩
    · exfalso
      apply hact
      unfold processMessage
      rw [if_pos ⟨ht, hv⟩]

/-- Witness for claim C7: the concrete tampered message is rejected with
`invalid-signature` and acknowledged. -/
theorem claim7_signature_gate_witness :
    processMessage c7msg = ⟨"rejected", some "invalid-signature", true, none⟩ :=
  claim7_signature_gate.1 c7msg "x0" rfl rfl (by decide)

/-- Hex digit decoding inverts hex digit encoding below 16. -/
theorem hexVal_hexDigitChar : ∀ n : Nat, n < 16 → hexVal (hexDigitChar n) = n := by
  decide

/-- Hex decoding inverts hex encoding on byte lists. -/
theorem hexToBytes_bytesToHex :
    ∀ bs : List Nat, (∀ b ∈ bs, b < 256) → hexToBytes (bytesToHex bs) = bs := by
  intro bs
  induction bs with
  | nil => intro _; rfl
  | cons b rest ih =>
    intro hb
    have hbyte : b < 256 := hb b (List.mem_cons_self b rest)
    have hrest := ih (fun x hx => hb x (List.mem_cons_of_mem b hx))
    show hexToBytes (hexByte b ++ bytesToHex rest) = b :: rest
    rw [show hexByte b = [hexDigitChar (b / 16), hexDigitChar (b % 16)] from rfl]
    show (hexVal (hexDigitChar (b / 16)) * 16 + hexVal (hexDigitChar (b % 16))) ::
        hexToBytes (bytesToHex rest) = b :: rest
    rw [hrest, hexVal_hexDigitChar (b / 16) (by omega), hexVal_hexDigitChar (b % 16) (by omega)]
    congr 1
    omega

/-- The little-endian coding decodes to its value below `256 ^ k`. -/
theorem leVal_leBytes : ∀ (k n : Nat), n < 256 ^ k → leVal (leBytes k n) = n := by
  intro k
  induction k with
  | zero =>
    intro n hn
    interval_cases n
    rfl
  | succ k ih =>
    intro n hn
    show n % 256 + 256 * leVal (leBytes k (n / 256)) = n
    rw [ih (n / 256) (by
      have : 256 ^ (k + 1) = 256 ^ k * 256 := pow_succ 256 k
      omega)]
    omega

/-- The little-endian coding has the requested length. -/
theorem leBytes_length : ∀ (k n : Nat), (leBytes k n).length = k := by
  intro k
  induction k with
  | zero => intro n; rfl
  | succ k ih =>
    intro n
    show (leBytes k (n / 256)).length + 1 = k + 1
    rw [ih]

/-- Every entry of the little-endian coding is a byte. -/
theorem leBytes_lt : ∀ (k n : Nat), ∀ b ∈ leBytes k n, b < 256 := by
  intro k
  induction k with
  | zero => intro n b hb; exact absurd hb (by simp [leBytes])
  | succ k ih =>
    intro n b hb
    rcases List.mem_cons.mp hb with h | h
    · omega
    · exact ih (n / 256) b h

/-- The merkle-path binary coding round-trips under well-formedness. -/
theorem mpFromBinary_mpToBinary (m : MerklePathM) (hwf : prWf (some m) = true) :
    mpFromBinary (mpToBinary m) = m := by
  have hbh : m.blockHeight < 256 ^ 8 := by
    simp only [prWf, Bool.and_eq_true, decide_eq_true_eq] at hwf
    exact hwf.1
  have h8 : (leBytes 8 m.blockHeight).length = 8 := leBytes_length 8 m.blockHeight
  unfold mpFromBinary mpToBinary
  rw [List.take_left' h8, List.drop_left' h8, leVal_leBytes 8 m.blockHeight hbh]

/-- Hex decode inverts hex encode on a well-formed binary merkle path. -/
theorem hexRoundtrip_mp (m : MerklePathM) (hwf : prWf (some m) = true) :
    hexToBytes (bytesToHex (mpToBinary m)) = mpToBinary m := by
  apply hexToBytes_bytesToHex
  intro b hb
  unfold mpToBinary at hb
  rcases List.mem_append.mp hb with h | h
  · exact leBytes_lt 8 m.blockHeight b h
  · simp only [prWf, Bool.and_eq_true, List.all_eq_true, decide_eq_true_eq] at hwf
    exact hwf.2 b h

/-- The proof snapshot of a chain entry decodes back to the proof it was
taken from. -/
theorem entry_proof_roundtrip (pr : Option MerklePathM) (hwf : prWf pr = true) :
    (pr.map (fun m => bytesToHex (mpToBinary m))).map
      (fun hx => mpFromBinary (hexToBytes hx)) = pr := by
  rcases pr with _ | m
  · rfl
  · show some (mpFromBinary (hexToBytes (bytesToHex (mpToBinary m)))) = some m
    rw [hexRoundtrip_mp m hwf, mpFromBinary_mpToBinary m hwf]

/-- Relinking a serialized source chain restores the chain exactly, given
enough fuel and well-formedness. -/
theorem relinkChain_serialize :
    ∀ (d : Nat) (s : TxC), s.wf = true → s.depth ≤ d →
      relinkChain (entryOf s) (serializeSourceChain s d) = some s := by
  intro d
  induction d with
  | zero =>
    intro s hwf hd
    cases s with
    | leaf w pr =>
      show some (TxC.leaf w ((pr.map (fun m => bytesToHex (mpToBinary m))).map
        (fun hx => mpFromBinary (hexToBytes hx)))) = some (TxC.leaf w pr)
      rw [entry_proof_roundtrip pr hwf]
    | node w u pr =>
      exact absurd hd (by simp [TxC.depth])
  | succ d ih =>
    intro s hwf hd
    cases s with
    | leaf w pr =>
      show some (TxC.leaf w ((pr.map (fun m => bytesToHex (mpToBinary m))).map
        (fun hx => mpFromBinary (hexToBytes hx)))) = some (TxC.leaf w pr)
      rw [entry_proof_roundtrip pr hwf]
    | node w u pr =>
      simp only [TxC.wf, Bool.and_eq_true] at hwf
      have hdep : u.depth ≤ d := by
        simp only [TxC.depth] at hd
        omega
      show relinkChain (entryOf (TxC.node w u pr)) (entryOf u :: serializeSourceChain u d) =
        some (TxC.node w u pr)
      unfold relinkChain
      rw [if_pos (show (entryOf (TxC.node w u pr)).txWire.hasInput = true from hwf.1.1)]
      rw [ih u hwf.2 hdep]
      show some (TxC.node w u ((pr.map (fun m => bytesToHex (mpToBinary m))).map
        (fun hx => mpFromBinary (hexToBytes hx)))) = some (TxC.node w u pr)
      rw [entry_proof_roundtrip pr hwf.1.2]

/-- Claim C5: for a transaction whose first-input ancestor chain has depth at
most 15, saving the change frontier and reconstructing it yields a
transaction with identical ancestor linkage: the same sequence of ancestor
ids reachable via each first input's source link, with the same merkle path
(block height and bytes) attached at each ancestor that had one, and the
same wire transaction on top. -/
theorem claim5_chain_roundtrip :
    ∀ (t : TxC) (sats vout : Nat),
      t.wf = true → t.depth ≤ 15 →
      ∃ t2, reconstructFromChain (saveChangeBeef t sats vout) = some t2 ∧
        t2.ancestry = t.ancestry ∧ t2.wire = t.wire := by
  intro t sats vout hwf hd
  cases t with
  | leaf w pr =>
    exact ⟨TxC.leaf w none, rfl, rfl, rfl⟩
  | node w u pr =>
    refine ⟨TxC.node w u none, ?_, rfl, rfl⟩
    simp only [TxC.wf, Bool.and_eq_true] at hwf
    have hdep : u.depth ≤ 14 := by
      simp only [TxC.depth] at hd
      omega
    show (if w.hasInput = true then
            (relinkChain (entryOf u) (serializeSourceChain u 14)).map
              (fun src => TxC.node w src none)
          else none) = some (TxC.node w u none)
    rw [if_pos hwf.1.1]
    rw [relinkChain_serialize 14 u hwf.2 hdep]
    rfl

/-- Witness for claim C5: the concrete two-ancestor chain with a proof at its
root round-trips. -/
theorem claim5_chain_roundtrip_witness :
    ∃ t2, reconstructFromChain (saveChangeBeef c5tx 100 1) = some t2 ∧
      t2.ancestry = c5tx.ancestry ∧ t2.wire = c5tx.wire :=
  claim5_chain_roundtrip c5tx 100 1 (by decide) (by decide)

end OverlayCLI
